import Mathlib

/-!
Shallow embedding of the disgord HTTP rate-limit core (package
`httd/ratelimit` and the `httd` dispatcher).

Modelling conventions:
* Go `time.Time` and `time.Duration` are modelled as unbounded integers
  counting nanoseconds since the epoch (`time.Time.UnixNano`); `int64`
  overflow of durations is not modelled.
* The Go `uint` fields `remaining`, `limit`, `longestTimeout` hold
  natural numbers; the arithmetic the source performs on `remaining`
  (`++`, `--`) and the `uint(...)` conversions wrap modulo 2^64, which we
  model explicitly because the source runs on 64-bit platforms.
* `sync.Mutex` locking is elided: every operation on a bucket happens
  under that bucket's lock in the source, so each exported operation is
  modelled as one atomic state transformation.
* Header string values are modelled as exact rationals (the numeric
  content of the decimal string); a value parses as an integer
  (`strconv.ParseInt`) exactly when its denominator is 1, and
  `strconv.ParseFloat` followed by Go's float-to-int conversion is
  modelled as exact rational arithmetic followed by truncation toward
  zero.
-/

namespace Ratelimit

/-- Size of the Go `uint` value space on 64-bit platforms: 2^64. -/
def uintSize : Nat := 18446744073709551616

/-- Go `x--` on a `uint`: wraps to 2^64 - 1 when x = 0. -/
def uintDec (r : Nat) : Nat := (r + (uintSize - 1)) % uintSize

/-- Go `x++` on a `uint`. -/
def uintInc (r : Nat) : Nat := (r + 1) % uintSize

/-- Go conversion `uint(x)` of an `int64` value: reduces modulo 2^64. -/
def uintOfInt (x : ℤ) : Nat := (x.emod (uintSize : ℤ)).toNat

/-- Embeds `type bucket struct` from httd/ratelimit/bucket.go.  The
`localKeys` slice, the mutex and the `global *bucket` back-pointer are
not fields here; the global bucket is carried alongside the local one in
`bucketPair` below. -/
structure bucket where
  key : String
  invalid : Bool
  lastUpdated : ℤ
  limit : Nat
  remaining : Nat
  reset : ℤ
  longestTimeout : Nat
  shortestTimeout : Nat
  active : Bool
deriving DecidableEq

/-- Opaque sentinel error `ErrRateLimited`; its definition (an
`errors.New` value) lives outside the provided source files, and only
its identity matters to the claims. -/
inductive RLError where
  | rateLimitedSentinel
deriving DecidableEq

/-- ErrRateLimited sentinel value returned by `acquire`. -/
def ErrRateLimited : RLError := RLError.rateLimitedSentinel

/-- Result triple `(delay, rateLimited, err)` of `bucket.acquire`. -/
structure acquireRes where
  delay : ℤ
  rateLimited : Bool
  err : Option RLError
deriving DecidableEq

/-- Embeds `func (b *bucket) update(now time.Time)`.  When
`longestTimeout > 0` and the window has expired, re-arm the window with
one probe request; `lastUpdated` is touched whenever
`longestTimeout > 0`. -/
def update (b : bucket) (now : ℤ) : bucket :=
  if b.longestTimeout = 0 then b
  else
    let b2 := if ¬ (now < b.reset) then
        { b with remaining := 1, reset := now + (b.longestTimeout : ℤ) * 1000000 }
      else b
    { b2 with lastUpdated := now }

/-- Embeds `func (b *bucket) limited(now time.Time) bool`:
`b.reset.After(now) && b.remaining == 0`. -/
def limited (b : bucket) (now : ℤ) : Bool :=
  decide (now < b.reset) && decide (b.remaining = 0)

/-- Embeds `func (b *bucket) acquire(now, within)` from bucket.go.
Note the delay returned in the reserve branch is the source's
`now.Add(within).Sub(b.reset)`, i.e. `(now + within) - reset`. -/
def acquire (b : bucket) (now within : ℤ) : acquireRes × bucket :=
  let b := update b now
  if limited b now then
    if 0 < within ∧ b.reset < now + within then
      ({ delay := now + within - b.reset, rateLimited := true, err := none },
       { b with remaining := uintDec b.remaining })
    else
      ({ delay := 0, rateLimited := true, err := some ErrRateLimited }, b)
  else
    ({ delay := 0, rateLimited := false, err := none },
     { b with remaining := uintDec b.remaining })

/-- Embeds `type bucketID struct` (the acquire ticket). -/
structure bucketID where
  global : Bool
  reset : ℤ
deriving DecidableEq

/-- A local bucket together with the shared global bucket it points to
(the `b.global` back-reference in the source). -/
structure bucketPair where
  b : bucket
  global : bucket
deriving DecidableEq

/-- Embeds `func (b *bucket) Acquire(now, within)`: if the global bucket
is active, acquire on it and ticket it with `global = true` and the
global bucket's (post-acquire) reset; otherwise acquire on the local
bucket.  The ticket's reset is read after the inner `acquire` returns,
exactly as in the source. -/
def Acquire (s : bucketPair) (now within : ℤ) :
    (acquireRes × bucketID) × bucketPair :=
  if s.global.active then
    let r := acquire s.global now within
    ((r.1, { global := true, reset := r.2.reset }), { s with global := r.2 })
  else
    let r := acquire s.b now within
    ((r.1, { global := false, reset := r.2.reset }), { s with b := r.2 })

/-- Embeds `func (b *bucket) regretAcquire()`: `b.remaining++`. -/
def regretAcquire (b : bucket) : bucket :=
  { b with remaining := uintInc b.remaining }

/-- Embeds `func (b *bucket) RegretAcquire(id bucketID)`: pick the
bucket the ticket targets; refund only if the ticket's reset still
equals the bucket's current reset. -/
def RegretAcquire (s : bucketPair) (id : bucketID) : bucketPair :=
  if id.global then
    if id.reset = s.global.reset then { s with global := regretAcquire s.global } else s
  else
    if id.reset = s.b.reset then { s with b := regretAcquire s.b } else s

/-- The bucket a ticket targets: the global bucket iff `id.global`. -/
def targetOf (s : bucketPair) (id : bucketID) : bucket :=
  if id.global then s.global else s.b

/-- Embeds the JSON body `RateLimitResponseStructure` of a 429 reply. -/
structure RateLimitResponseStructure where
  message : String
  retryAfter : ℤ
  global : Bool
deriving DecidableEq

/-- The rate-limit-relevant response headers.  `date` is the RFC 1123
`date` header, already parsed to epoch nanoseconds; `none` stands for a
missing or unparsable date (the two cases `HeaderToTime` reports as an
error).  The numeric `X-RateLimit-*` values are the exact rational
content of the header string; `none` means the header is absent. -/
structure Header where
  date : Option ℤ
  reset : Option ℚ
  resetAfter : Option ℚ
  retryAfter : Option ℚ
  limit : Option ℚ
  remaining : Option ℚ
  bucketKey : Option String
  global : Bool
deriving DecidableEq

/-- Embeds `HeaderToTime`: the parsed `date` header, or an error
(modelled as `none`) when it is missing or does not parse. -/
def HeaderToTime (h : Header) : Option ℤ := h.date

/-- Go's float-to-integer conversion `int64(f)`: truncation toward
zero, on the exact rational value (`Int.tdiv` truncates toward zero). -/
def goTrunc (q : ℚ) : ℤ := Int.tdiv q.num (q.den : ℤ)

/-- Go `strconv.ParseInt` applied to the decimal string behind a
rational header value: succeeds exactly on integers. -/
def parseIntQ (q : ℚ) : Option ℤ := if q.den = 1 then some q.num else none

/-- Embeds the 429 branch of `CorrectDiscordHeader`: JSON-decode the
body (`none` models an unmarshal failure, which aborts with an error);
propagate `global` and overwrite `reset-after` with `retry_after` when
positive. -/
def step429 (statusCode : ℤ) (body : Option RateLimitResponseStructure)
    (h : Header) : Except Unit Header :=
  if statusCode = 429 then
    match body with
    | none => Except.error ()
    | some info =>
      let h2 := if info.global then { h with global := true } else h
      Except.ok (if 0 < info.retryAfter then
          { h2 with resetAfter := some ((info.retryAfter : ℚ)) } else h2)
  else Except.ok h

/-- Embeds the `Retry-After` branch of `CorrectDiscordHeader`: copy the
generic `Retry-After` value verbatim into `X-RateLimit-Reset-After`. -/
def stepRetryAfter (h : Header) : Header :=
  match h.retryAfter with
  | some r => { h with resetAfter := some r }
  | none => h

/-- Embeds the `X-RateLimit-Reset` rewrite of `CorrectDiscordHeader`:
fractional epoch seconds become integer epoch milliseconds via
`int64(epoch*1000)`. -/
def stepResetMs (h : Header) : Header :=
  match h.reset with
  | some q => { h with reset := some ((goTrunc (q * 1000) : ℤ) : ℚ) }
  | none => h

/-- Embeds the synthesis step of `CorrectDiscordHeader`: when `reset` is
absent but `reset-after` is present, parse the latter as an integer
(`strconv.ParseInt`; failure aborts with an error) and store
`(timestamp + delay ms).UnixNano() / 1e6` as the new `reset`.  Go's
`int64` division truncates toward zero, hence `Int.tdiv`. -/
def stepSynthesizeReset (h : Header) (timestamp : ℤ) : Except Unit Header :=
  match h.reset with
  | some _ => Except.ok h
  | none =>
    match h.resetAfter with
    | none => Except.ok h
    | some q =>
      match parseIntQ q with
      | none => Except.error ()
      | some delay =>
        Except.ok { h with
          reset := some ((Int.tdiv (timestamp + delay * 1000000) 1000000 : ℤ) : ℚ) }

/-- Embeds `func CorrectDiscordHeader(statusCode, header, body)` from
the ratelimit package, with `localNow` standing for the `time.Now()`
fallback used when the `date` header does not parse. -/
def CorrectDiscordHeader (statusCode : ℤ) (header : Header)
    (body : Option RateLimitResponseStructure) (localNow : ℤ) :
    Except Unit Header :=
  let timestamp := (HeaderToTime header).getD localNow
  let h1 := match header.resetAfter with
    | some q => { header with resetAfter := some ((goTrunc (q * 1000) : ℤ) : ℚ) }
    | none => header
  match step429 statusCode body h1 with
  | Except.error e => Except.error e
  | Except.ok h2 =>
    let h3 := stepRetryAfter h2
    let h4 := stepResetMs h3
    stepSynthesizeReset h4 timestamp

/-- Projection of a successful `CorrectDiscordHeader` outcome. -/
def okHeader (r : Except Unit Header) : Option Header :=
  match r with
  | Except.ok h => some h
  | Except.error _ => none

/-- Final `X-RateLimit-Reset-After` value of a normalizer outcome. -/
def resultResetAfter (r : Except Unit Header) : Option ℚ :=
  (okHeader r).bind Header.resetAfter

/-- Final `X-RateLimit-Reset` value of a normalizer outcome. -/
def resultReset (r : Except Unit Header) : Option ℚ :=
  (okHeader r).bind Header.reset

/-- Embeds the `X-RateLimit-Bucket` step of `Manager.UpdateBucket`:
store the server-designated key. -/
def updKey (bu : bucket) (header : Header) : bucket :=
  match header.bucketKey with
  | some k => { bu with key := k }
  | none => bu

/-- Embeds the `X-RateLimit-Limit` step of `Manager.UpdateBucket`; a
parse failure makes the whole update return early. -/
def updLimit (bu : bucket) (header : Header) : bucket :=
  match header.limit with
  | some q =>
    match parseIntQ q with
    | none => bu
    | some l => updKey { bu with limit := uintOfInt l } header
  | none => updKey bu header

/-- Embeds the `X-RateLimit-Remaining` step of `Manager.UpdateBucket`. -/
def updRemaining (bu : bucket) (header : Header) : bucket :=
  match header.remaining with
  | some q =>
    match parseIntQ q with
    | none => bu
    | some r => updLimit { bu with remaining := uintOfInt r } header
  | none => updLimit bu header

/-- Embeds the `X-RateLimit-Reset` step of `Manager.UpdateBucket`:
`bu.reset = time.Unix(0, epoch+diff.Nanoseconds())` stores the parsed
header value (milliseconds) plus the drift (nanoseconds) as a
nanosecond timestamp.  `old := b.reset` reads the *local* bucket's
reset in the source even when the target is the global bucket, hence
the extra `bLocal` argument.  `uint(int64/1e6)` wraps negative
differences, hence `uintOfInt` over `Int.tdiv`. -/
def updReset (bu bLocal : bucket) (header : Header) (diff : ℤ) : bucket :=
  match header.reset with
  | some q =>
    match parseIntQ q with
    | none => bu
    | some epoch =>
      let old := bLocal.reset
      let bu2 := { bu with reset := epoch + diff }
      let oldNewDiffMs := uintOfInt (Int.tdiv (bu2.reset - old) 1000000)
      let bu3 := if bu2.reset ≠ old ∧ bu2.longestTimeout < oldNewDiffMs then
          { bu2 with longestTimeout := oldNewDiffMs } else bu2
      updRemaining bu3 header
  | none => updRemaining bu header

/-- Embeds `func (r *Manager) UpdateBucket(...)` restricted to the
already-resolved bucket pair: compute the drift
`diff = localNow - parsed date`, pick the global bucket when
`X-RateLimit-Global` is `"true"`, and run the field updates under the
target's lock. -/
def UpdateBucket (s : bucketPair) (header : Header) (localNow : ℤ) : bucketPair :=
  let discordTime := (HeaderToTime header).getD localNow
  let diff := localNow - discordTime
  if header.global then
    { s with global := updReset s.global s.b header diff }
  else
    { s with b := updReset s.b s.b header diff }

end Ratelimit

namespace Httd

/-- The only field of Go's `http.Client` the dispatcher reads. -/
structure HTTPClient where
  timeout : ℤ
deriving DecidableEq

/-- Embeds `type Config struct` from the httd package. -/
structure Config where
  apiVersion : ℤ
  botToken : String
  httpClient : Option HTTPClient
  cancelRequestWhenRateLimited : Bool
  userAgentVersion : String
  userAgentSourceURL : String
  userAgentExtra : String
deriving DecidableEq

/-- Embeds `type Client struct` (the fields the claims touch). -/
structure Client where
  url : String
  cancelRequestWhenRateLimited : Bool
  httpClient : HTTPClient
deriving DecidableEq

/-- Embeds `func SupportsDiscordAPIVersion(version int) bool`: the
compiled allowlist is the single element 6. -/
def SupportsDiscordAPIVersion (version : ℤ) : Bool :=
  [(6 : ℤ)].contains version

/-- Embeds the `BaseURL` constant. -/
def BaseURL : String := "https://discordapp.com/api"

/-- Embeds `func NewClient(conf *Config) (*Client, error)`.  The Go
composite literal building the client never assigns the
`cancelRequestWhenRateLimited` field, so it stays at its zero value
`false`. -/
def NewClient (conf : Config) : Except String Client :=
  if ¬ SupportsDiscordAPIVersion conf.apiVersion then
    Except.error "Discord API version is not supported"
  else if conf.botToken = "" then
    Except.error "no Discord Bot Token was provided"
  else
    let httpClient := conf.httpClient.getD { timeout := 10000000000 }
    if conf.userAgentSourceURL = "" ∨ conf.userAgentVersion = "" then
      Except.error "both a source and a version must be present for sending requests to the Discord REST API"
    else
      Except.ok { url := BaseURL ++ "/v" ++ toString conf.apiVersion,
                  cancelRequestWhenRateLimited := false,
                  httpClient := httpClient }

/-- True when `NewClient` rejected the configuration. -/
def isErr (r : Except String Client) : Bool :=
  match r with
  | Except.error _ => true
  | Except.ok _ => false

/-- Embeds the `ContentTypeJSON` constant. -/
def ContentTypeJSON : String := "application/json"

/-- Embeds the `acceptableDelay` computation at the top of
`Client.Do`: 200 ms, replaced by the HTTP client's timeout when the
(never-assigned) `cancelRequestWhenRateLimited` field is false. -/
def acceptableDelay (c : Client) : ℤ :=
  if ¬ c.cancelRequestWhenRateLimited then c.httpClient.timeout else 200000000

/-- The aspects of an httd `Request` that steer `Client.Do`'s body
preparation: whether a body is present, whether it is an `io.Reader`,
its content type, and whether `json.Marshal` of it succeeds
(`convertStructToIOReader`). -/
structure Request where
  hasBody : Bool
  bodyIsReader : Bool
  contentType : String
  marshalOk : Bool
deriving DecidableEq

/-- Outcomes of the external effects `Client.Do` performs after the
body is prepared: `http.NewRequest`, the transport round-trip,
`CorrectDiscordHeader`, and the HTTP status classification. -/
structure World where
  newRequestOk : Bool
  transportOk : Bool
  headerOk : Bool
  statusSuccess : Bool
deriving DecidableEq

/-- The distinct error exits of `Client.Do`. -/
inductive DoError where
  | rateLimited
  | badBodyType
  | marshalFailed
  | newRequestFailed
  | transportFailed
  | headerFailed
  | restError
deriving DecidableEq

/-- What a `Client.Do` run reports: which error (if any) it returned,
whether `RegretAcquire` was called on the way out, and whether the
HTTP request was handed to the transport. -/
structure DoResult where
  err : Option DoError
  regretCalled : Bool
  requestIssued : Bool
deriving DecidableEq

/-- Embeds the control flow of `func (c *Client) Do(r *Request)`:
acquire a permit (propagating `ErrRateLimited` before any request is
built), prepare the body (errors here return *without* a refund),
build the request and send it (errors in these two steps refund via
`RegretAcquire`), then normalize headers and classify the status.  The
post-response `UpdateBucket`/`Consolidate` calls are elided here — the
response headers are abstracted by `World` — so the returned pair is
the bucket state as of the acquire/regret steps. -/
def Do (c : Client) (s : Ratelimit.bucketPair) (r : Request) (w : World)
    (now : ℤ) : DoResult × Ratelimit.bucketPair :=
  let a := Ratelimit.Acquire s now (acceptableDelay c)
  let s1 := a.2
  let id := a.1.2
  if a.1.1.err.isSome then
    ({ err := some DoError.rateLimited, regretCalled := false, requestIssued := false }, s1)
  else
    let bodyFail : Option DoError :=
      if r.hasBody then
        if r.bodyIsReader then none
        else if r.contentType ≠ ContentTypeJSON then some DoError.badBodyType
        else if ¬ r.marshalOk then some DoError.marshalFailed
        else none
      else none
    match bodyFail with
    | some e => ({ err := some e, regretCalled := false, requestIssued := false }, s1)
    | none =>
      if ¬ w.newRequestOk then
        ({ err := some DoError.newRequestFailed, regretCalled := true, requestIssued := false },
         Ratelimit.RegretAcquire s1 id)
      else if ¬ w.transportOk then
        ({ err := some DoError.transportFailed, regretCalled := true, requestIssued := true },
         Ratelimit.RegretAcquire s1 id)
      else if ¬ w.headerOk then
        ({ err := some DoError.headerFailed, regretCalled := false, requestIssued := true }, s1)
      else if ¬ w.statusSuccess then
        ({ err := some DoError.restError, regretCalled := false, requestIssued := true }, s1)
      else
        ({ err := none, regretCalled := false, requestIssued := true }, s1)

/-- The condition under which `Client.Do`'s body preparation fails: a
body that is not an `io.Reader` whose content type is not JSON, or
whose JSON marshalling fails. -/
def bodyPrepFails (r : Request) : Prop :=
  r.hasBody = true ∧ r.bodyIsReader = false ∧
    (r.contentType ≠ ContentTypeJSON ∨ r.marshalOk = false)

instance (r : Request) : Decidable (bodyPrepFails r) := by
  unfold bodyPrepFails; infer_instance

end Httd

/-- Iterated local `acquire`: the bucket state after `n` further
acquire calls, the `i`-th using time and patience `sched i`.  Used to
express "every subsequent Acquire before the next header update". -/
def acquireIter (b : Ratelimit.bucket) (sched : ℕ → ℤ × ℤ) : ℕ → Ratelimit.bucket
  | 0 => b
  | n + 1 => (Ratelimit.acquire (acquireIter b sched n) (sched n).1 (sched n).2).2

theorem uintDec_of_pos {r : ℕ} (h1 : 0 < r) (h2 : r ≤ Ratelimit.uintSize) :
    Ratelimit.uintDec r = r - 1 := by
  have hU : 0 < Ratelimit.uintSize := by decide
  unfold Ratelimit.uintDec
  have h3 : r + (Ratelimit.uintSize - 1) = (r - 1) + Ratelimit.uintSize := by omega
  rw [h3, Nat.add_mod_right]
  exact Nat.mod_eq_of_lt (by omega)

theorem update_reset_le (b : Ratelimit.bucket) (now : ℤ)
    (h : (Ratelimit.update b now).reset ≤ now) : b.longestTimeout = 0 := by
  by_contra hLT
  unfold Ratelimit.update at h
  rw [if_neg hLT] at h
  by_cases hr : now < b.reset
  · rw [if_neg (not_not_intro hr)] at h
    change b.reset ≤ now at h
    omega
  · rw [if_pos hr] at h
    change now + (b.longestTimeout : ℤ) * 1000000 ≤ now at h
    have h1 : (1 : ℤ) ≤ (b.longestTimeout : ℤ) := by
      exact_mod_cast Nat.one_le_iff_ne_zero.mpr hLT
    omega

theorem limited_update_remaining (b : Ratelimit.bucket) (now : ℤ)
    (h : Ratelimit.limited (Ratelimit.update b now) now = true) :
    (Ratelimit.update b now).remaining = b.remaining := by
  unfold Ratelimit.update at h ⊢
  by_cases hLT : b.longestTimeout = 0
  · rw [if_pos hLT]
  · rw [if_neg hLT] at h ⊢
    by_cases hr : now < b.reset
    · rw [if_neg (not_not_intro hr)] at h ⊢
    · rw [if_pos hr] at h
      unfold Ratelimit.limited at h
      simp only [Bool.and_eq_true, decide_eq_true_eq] at h
      exact absurd h.2 Nat.one_ne_zero

/-- Local `acquire` on a bucket with no recorded timeout and a nonzero
`remaining` is never limited: it decrements and reports no limit. -/
theorem acquire_step_free (b : Ratelimit.bucket) (now within : ℤ)
    (hLT : b.longestTimeout = 0) (hr : b.remaining ≠ 0) :
    (Ratelimit.acquire b now within).1.rateLimited = false ∧
    (Ratelimit.acquire b now within).1.err = none ∧
    (Ratelimit.acquire b now within).2.remaining = Ratelimit.uintDec b.remaining ∧
    (Ratelimit.acquire b now within).2.longestTimeout = 0 := by
  unfold Ratelimit.acquire Ratelimit.update Ratelimit.limited
  simp [hLT, hr]

/-- Invariant driving C9: starting from a bucket with
`remaining = 2^64 - 1` and no recorded timeout, `n` acquires leave
`remaining = 2^64 - 1 - n`. -/
theorem acquireIter_remaining (b : Ratelimit.bucket) (sched : ℕ → ℤ × ℤ)
    (hLT : b.longestTimeout = 0) (hstart : b.remaining = Ratelimit.uintSize - 1) :
    ∀ n : ℕ, n ≤ Ratelimit.uintSize - 1 →
      (acquireIter b sched n).remaining = Ratelimit.uintSize - 1 - n ∧
      (acquireIter b sched n).longestTimeout = 0 := by
  have hU : 2 < Ratelimit.uintSize := by decide
  intro n
  induction n with
  | zero => intro _; exact ⟨by simpa [acquireIter] using hstart, by simpa [acquireIter] using hLT⟩
  | succ k ih =>
    intro hk
    obtain ⟨h1, h2⟩ := ih (by omega)
    have hrne : (acquireIter b sched k).remaining ≠ 0 := by omega
    obtain ⟨_, _, h3, h4⟩ :=
      acquire_step_free (acquireIter b sched k) (sched k).1 (sched k).2 h2 hrne
    refine ⟨?_, h4⟩
    show (Ratelimit.acquire (acquireIter b sched k) (sched k).1 (sched k).2).2.remaining = _
    rw [h3, h1, uintDec_of_pos (by omega) (by omega)]
    omega




/-- Bucket in the spec's S2 state: `remaining = 0`, `reset = now + 150 ms`
(with `now = 0`), no recorded timeout. -/
def bucketS2 : Ratelimit.bucket :=
  { key := "", invalid := false, lastUpdated := 0, limit := 1, remaining := 0,
    reset := 150000000, longestTimeout := 0, shortestTimeout := 0, active := false }

/-- Claim C1: the claim says `acquire` in the reserve branch returns
`delay = reset - now` (150 ms in the S2 scenario).  The source instead
computes `now.Add(within).Sub(b.reset)`, i.e. `(now + within) - reset`:
at `remaining = 0`, `reset = now + 150 ms`, `within = 500 ms` the caller
receives 350 ms, not 150 ms.  This theorem evaluates the code at that
failing input. -/
theorem C1_s2_delay_code_eval :
    (Ratelimit.acquire bucketS2 0 500000000).1.delay = 350000000 ∧
    (Ratelimit.acquire bucketS2 0 500000000).1.rateLimited = true ∧
    bucketS2.reset - 0 = 150000000 ∧
    (350000000 : ℤ) ≠ 150000000 := by decide

/-- A freshly zeroed bucket used as the base state of update tests. -/
def bucketBase : Ratelimit.bucket :=
  { key := "", invalid := false, lastUpdated := 0, limit := 1, remaining := 1,
    reset := 0, longestTimeout := 0, shortestTimeout := 0, active := false }

/-- Normalized header carrying `X-RateLimit-Reset = 1600000000000`
(integer epoch milliseconds) and a `date` equal to the local clock, so
the drift is zero. -/
def headerC2 : Ratelimit.Header :=
  { date := some 0, reset := some ((1600000000000 : ℤ) : ℚ), resetAfter := none,
    retryAfter := none, limit := none, remaining := none, bucketKey := none,
    global := false }

/-- Pair of local and global bucket both in the base state. -/
def pairC2 : Ratelimit.bucketPair := { b := bucketBase, global := bucketBase }

/-- Claim C2: the claim says the stored reset, read back as epoch
milliseconds, equals the header value plus the drift in milliseconds.
The source stores `time.Unix(0, epoch+diff.Nanoseconds())`, feeding the
millisecond header value into a nanosecond constructor: with header
reset 1600000000000 ms and zero drift the stored instant reads back as
1600000 ms, not 1600000000000 ms.  This theorem evaluates the code at
that failing input. -/
theorem C2_reset_millis_as_nanos_code_eval :
    (Ratelimit.UpdateBucket pairC2 headerC2 0).b.reset = 1600000000000 ∧
    Int.tdiv (Ratelimit.UpdateBucket pairC2 headerC2 0).b.reset 1000000 = 1600000 ∧
    (1600000 : ℤ) ≠ 1600000000000 + 0 := by decide

/-- Bucket with permits left but an expired window and no recorded
timeout: `acquire` grants without being limited and without any
refresh having run. -/
def bucketC3 : Ratelimit.bucket :=
  { key := "", invalid := false, lastUpdated := 0, limit := 5, remaining := 5,
    reset := 0, longestTimeout := 0, shortestTimeout := 0, active := false }

/-- Claim C3 counterexample: at `remaining = 5`, `reset = 0`,
`longestTimeout = 0` and `now = 10`, `acquire` returns
`rateLimited = false`, yet the pre-decrement bucket neither satisfied
`remaining > 0 ∧ reset > now` nor had the refresh step run
(`longestTimeout > 0 ∧ reset ≤ now`), refuting the claim as stated. -/
theorem C3_counterexample :
    ¬ (((Ratelimit.acquire bucketC3 10 0).1.rateLimited = false) →
        ((0 < (Ratelimit.update bucketC3 10).remaining ∧
          10 < (Ratelimit.update bucketC3 10).reset) ∨
         (0 < bucketC3.longestTimeout ∧ bucketC3.reset ≤ 10))) := by decide

/-- Claim C3 (amended): whenever local `acquire` returns
`rateLimited = false`, the bucket immediately before the decrement
(i.e. after the refresh step) satisfied `remaining > 0 ∧ reset > now`,
or its window had already expired (`reset ≤ now` even after the
refresh step, which can only happen when `longestTimeout = 0`). -/
theorem C3_amended_no_request_under_limit (b : Ratelimit.bucket) (now within : ℤ)
    (h : (Ratelimit.acquire b now within).1.rateLimited = false) :
    (0 < (Ratelimit.update b now).remaining ∧ now < (Ratelimit.update b now).reset) ∨
    ((Ratelimit.update b now).reset ≤ now ∧ b.longestTimeout = 0) := by
  have hlim : Ratelimit.limited (Ratelimit.update b now) now = false := by
    by_contra hc
    have hc' : Ratelimit.limited (Ratelimit.update b now) now = true := by
      revert hc
      cases Ratelimit.limited (Ratelimit.update b now) now <;> simp
    simp only [Ratelimit.acquire] at h
    rw [hc'] at h
    by_cases hw : 0 < within ∧ (Ratelimit.update b now).reset < now + within
    · rw [if_pos rfl, if_pos hw] at h
      exact absurd h (by simp)
    · rw [if_pos rfl, if_neg hw] at h
      exact absurd h (by simp)
  unfold Ratelimit.limited at hlim
  simp only [Bool.and_eq_false_iff, decide_eq_false_iff_not, not_lt] at hlim
  rcases hlim with hres | hrem
  · exact Or.inr ⟨hres, update_reset_le b now hres⟩
  · by_cases hres : now < (Ratelimit.update b now).reset
    · exact Or.inl ⟨Nat.pos_of_ne_zero hrem, hres⟩
    · push_neg at hres
      exact Or.inr ⟨hres, update_reset_le b now hres⟩

/-- Bucket with one permit and a live window, used to exercise the
amended C3 statement. -/
def bucketC3w : Ratelimit.bucket :=
  { key := "", invalid := false, lastUpdated := 0, limit := 1, remaining := 1,
    reset := 100, longestTimeout := 0, shortestTimeout := 0, active := false }

/-- Witness for the amended C3 theorem at a concrete grant. -/
theorem C3_amended_witness :
    (0 < (Ratelimit.update bucketC3w 0).remaining ∧
     (0 : ℤ) < (Ratelimit.update bucketC3w 0).reset) ∨
    ((Ratelimit.update bucketC3w 0).reset ≤ 0 ∧ bucketC3w.longestTimeout = 0) :=
  C3_amended_no_request_under_limit bucketC3w 0 0 (by decide)

/-- Claim C4: `RegretAcquire(ticket)` increments the targeted bucket's
`remaining` exactly when the ticket's recorded reset equals the
bucket's current reset — the target being the global bucket iff the
ticket is global — and otherwise leaves the whole state unchanged; the
non-targeted bucket is never touched. -/
theorem C4_regret_refund (s : Ratelimit.bucketPair) (id : Ratelimit.bucketID) :
    (id.reset = (Ratelimit.targetOf s id).reset →
      (Ratelimit.targetOf (Ratelimit.RegretAcquire s id) id).remaining =
        Ratelimit.uintInc (Ratelimit.targetOf s id).remaining) ∧
    (id.reset ≠ (Ratelimit.targetOf s id).reset →
      Ratelimit.RegretAcquire s id = s) ∧
    (id.global = true → (Ratelimit.RegretAcquire s id).b = s.b) ∧
    (id.global = false → (Ratelimit.RegretAcquire s id).global = s.global) := by
  unfold Ratelimit.RegretAcquire Ratelimit.targetOf Ratelimit.regretAcquire
  by_cases hg : id.global <;>
    simp only [hg, if_pos, if_neg, Bool.true_eq_false, Bool.false_eq_true,
      IsEmpty.forall_iff, implies_true, and_true, true_and, if_true, if_false,
      Bool.not_true, Bool.not_false] <;>
    by_cases he : id.reset = (if id.global then s.global else s.b).reset <;>
    simp_all

/-- State and matching ticket for the C4 witness. -/
def pairC4 : Ratelimit.bucketPair := { b := bucketC3w, global := bucketBase }

/-- Ticket recorded against the local bucket of `pairC4`. -/
def idC4 : Ratelimit.bucketID := { global := false, reset := 100 }

/-- Witness for C4 at a concrete matching ticket. -/
theorem C4_regret_refund_witness :
    (Ratelimit.targetOf (Ratelimit.RegretAcquire pairC4 idC4) idC4).remaining =
      Ratelimit.uintInc (Ratelimit.targetOf pairC4 idC4).remaining :=
  (C4_regret_refund pairC4 idC4).1 (by decide)


/-- Claim C5: with the global bucket inactive, `Acquire` returns
`ErrRateLimited` exactly when the post-refresh local bucket is limited
and the caller's patience does not cover the window
(`¬(within > 0 ∧ reset < now + within)`); in that case delay = 0,
rateLimited = true, `remaining` is untouched, and `Client.Do` returns
before issuing any request. -/
theorem C5_err_rate_limited_iff (s : Ratelimit.bucketPair) (now within : ℤ)
    (hg : s.global.active = false) :
    ((Ratelimit.Acquire s now within).1.1.err = some Ratelimit.ErrRateLimited ↔
      (Ratelimit.limited (Ratelimit.update s.b now) now = true ∧
       ¬ (0 < within ∧ (Ratelimit.update s.b now).reset < now + within))) ∧
    ((Ratelimit.Acquire s now within).1.1.err = some Ratelimit.ErrRateLimited →
      (Ratelimit.Acquire s now within).1.1.delay = 0 ∧
      (Ratelimit.Acquire s now within).1.1.rateLimited = true ∧
      (Ratelimit.Acquire s now within).2.b.remaining = s.b.remaining) ∧
    (∀ (c : Httd.Client) (r : Httd.Request) (w : Httd.World),
      (Ratelimit.Acquire s now (Httd.acceptableDelay c)).1.1.err =
          some Ratelimit.ErrRateLimited →
      (Httd.Do c s r w now).1.err = some Httd.DoError.rateLimited ∧
      (Httd.Do c s r w now).1.requestIssued = false) := by
  have hAcq : ∀ w' : ℤ, Ratelimit.Acquire s now w' =
      ((((Ratelimit.acquire s.b now w').1),
        { global := false, reset := (Ratelimit.acquire s.b now w').2.reset }),
       { s with b := (Ratelimit.acquire s.b now w').2 }) := by
    intro w'
    simp [Ratelimit.Acquire, hg]
  refine ⟨?_, ?_, ?_⟩
  · rw [hAcq]
    simp only [Ratelimit.acquire]
    by_cases hl : Ratelimit.limited (Ratelimit.update s.b now) now = true
    · rw [hl]
      by_cases hw : 0 < within ∧ (Ratelimit.update s.b now).reset < now + within
      · rw [if_pos rfl, if_pos hw]
        simp [hl, hw]
      · rw [if_pos rfl, if_neg hw]
        simp [hl, hw]
    · have hl' : Ratelimit.limited (Ratelimit.update s.b now) now = false := by
        revert hl
        cases Ratelimit.limited (Ratelimit.update s.b now) now <;> simp
      rw [hl']
      rw [if_neg (by simp)]
      simp [hl']
  · intro he
    rw [hAcq] at he ⊢
    simp only [Ratelimit.acquire] at he ⊢
    by_cases hl : Ratelimit.limited (Ratelimit.update s.b now) now = true
    · rw [hl] at he ⊢
      by_cases hw : 0 < within ∧ (Ratelimit.update s.b now).reset < now + within
      · rw [if_pos rfl, if_pos hw] at he
        exact absurd he (by simp)
      · rw [if_pos rfl, if_neg hw] at he ⊢
        exact ⟨rfl, rfl, limited_update_remaining s.b now hl⟩
    · have hl' : Ratelimit.limited (Ratelimit.update s.b now) now = false := by
        revert hl
        cases Ratelimit.limited (Ratelimit.update s.b now) now <;> simp
      rw [hl'] at he
      rw [if_neg (by simp)] at he
      exact absurd he (by simp)
  · intro c r w he
    have hsome : (Ratelimit.Acquire s now (Httd.acceptableDelay c)).1.1.err.isSome = true := by
      rw [he]
      rfl
    simp [Httd.Do, hsome]

/-- Limited pair with inactive global bucket for the C5 witness:
`remaining = 0`, `reset = 100 ms`, caller patience `within = 0`. -/
def pairC5 : Ratelimit.bucketPair := { b := bucketS2, global := bucketBase }

/-- Witness for C5: the concrete limited state with no patience yields
the `ErrRateLimited` exit. -/
theorem C5_err_rate_limited_witness :
    (Ratelimit.Acquire pairC5 0 0).1.1.err = some Ratelimit.ErrRateLimited :=
  (C5_err_rate_limited_iff pairC5 0 0 rfl).1.mpr (by decide)

/-- Claim C6: every client built by `NewClient` carries
`cancelRequestWhenRateLimited = false` (the Go composite literal never
assigns the private mirror field), so the `within` budget `Client.Do`
passes to `Acquire` is always the HTTP client's timeout and never the
200 ms branch — regardless of `Config.CancelRequestWhenRateLimited`. -/
theorem C6_within_equals_timeout (conf : Httd.Config) (c : Httd.Client)
    (h : Httd.NewClient conf = Except.ok c) :
    c.cancelRequestWhenRateLimited = false ∧
    Httd.acceptableDelay c = c.httpClient.timeout := by
  by_cases hv : Httd.SupportsDiscordAPIVersion conf.apiVersion = true
  · by_cases ht : conf.botToken = ""
    · exfalso
      simp only [Httd.NewClient] at h
      rw [if_neg (not_not_intro hv), if_pos ht] at h
      exact absurd h (by simp)
    · by_cases hu : conf.userAgentSourceURL = "" ∨ conf.userAgentVersion = ""
      · exfalso
        simp only [Httd.NewClient] at h
        rw [if_neg (not_not_intro hv), if_neg ht, if_pos hu] at h
        exact absurd h (by simp)
      · simp only [Httd.NewClient] at h
        rw [if_neg (not_not_intro hv), if_neg ht, if_neg hu] at h
        injection h with h'
        rw [← h']
        exact ⟨rfl, rfl⟩
  · exfalso
    simp only [Httd.NewClient] at h
    rw [if_pos hv] at h
    exact absurd h (by simp)

/-- A complete configuration that requests cancel-on-rate-limit. -/
def confC6 : Httd.Config :=
  { apiVersion := 6, botToken := "token", httpClient := none,
    cancelRequestWhenRateLimited := true, userAgentVersion := "v1",
    userAgentSourceURL := "https://example.org/bot", userAgentExtra := "" }

/-- The client `NewClient confC6` produces. -/
def clientC6 : Httd.Client :=
  { url := Httd.BaseURL ++ "/v" ++ toString (6 : ℤ),
    cancelRequestWhenRateLimited := false,
    httpClient := { timeout := 10000000000 } }

/-- Witness for C6 at the concrete configuration. -/
theorem C6_within_equals_timeout_witness :
    clientC6.cancelRequestWhenRateLimited = false ∧
    Httd.acceptableDelay clientC6 = clientC6.httpClient.timeout :=
  C6_within_equals_timeout confC6 clientC6 rfl

/-- Claim C8: `NewClient` errors exactly when the API version is off
the allowlist, the bot token is empty, or a user-agent field is empty;
on success the client's HTTP client is the configured one, with a
default 10 s timeout client substituted when none was configured. -/
theorem C8_new_client_validation (conf : Httd.Config) :
    (Httd.isErr (Httd.NewClient conf) = true ↔
      (Httd.SupportsDiscordAPIVersion conf.apiVersion = false ∨
       conf.botToken = "" ∨
       conf.userAgentSourceURL = "" ∨ conf.userAgentVersion = "")) ∧
    (∀ c, Httd.NewClient conf = Except.ok c →
      c.httpClient = conf.httpClient.getD { timeout := 10000000000 }) := by
  by_cases hv : Httd.SupportsDiscordAPIVersion conf.apiVersion = true
  · by_cases ht : conf.botToken = ""
    · have he : Httd.isErr (Httd.NewClient conf) = true := by
        simp only [Httd.NewClient]
        rw [if_neg (not_not_intro hv), if_pos ht]
        rfl
      refine ⟨iff_of_true he (Or.inr (Or.inl ht)), ?_⟩
      intro c hc
      rw [hc] at he
      exact absurd he (by simp [Httd.isErr])
    · by_cases hu : conf.userAgentSourceURL = "" ∨ conf.userAgentVersion = ""
      · have he : Httd.isErr (Httd.NewClient conf) = true := by
          simp only [Httd.NewClient]
          rw [if_neg (not_not_intro hv), if_neg ht, if_pos hu]
          rfl
        refine ⟨iff_of_true he ?_, ?_⟩
        · rcases hu with hu1 | hu2
          · exact Or.inr (Or.inr (Or.inl hu1))
          · exact Or.inr (Or.inr (Or.inr hu2))
        · intro c hc
          rw [hc] at he
          exact absurd he (by simp [Httd.isErr])
      · have he : Httd.NewClient conf = Except.ok
            { url := Httd.BaseURL ++ "/v" ++ toString conf.apiVersion,
              cancelRequestWhenRateLimited := false,
              httpClient := conf.httpClient.getD { timeout := 10000000000 } } := by
          simp only [Httd.NewClient]
          rw [if_neg (not_not_intro hv), if_neg ht, if_neg hu]
        refine ⟨iff_of_false (by rw [he]; simp [Httd.isErr]) ?_, ?_⟩
        · rintro (hx | hx | hx | hx)
          · rw [hv] at hx
            exact absurd hx (by simp)
          · exact ht hx
          · exact hu (Or.inl hx)
          · exact hu (Or.inr hx)
        · intro c hc
          rw [he] at hc
          injection hc with h'
          rw [← h']
  · have he : Httd.isErr (Httd.NewClient conf) = true := by
      simp only [Httd.NewClient]
      rw [if_pos hv]
      rfl
    have hvf : Httd.SupportsDiscordAPIVersion conf.apiVersion = false := by
      revert hv
      cases Httd.SupportsDiscordAPIVersion conf.apiVersion <;> simp
    refine ⟨iff_of_true he (Or.inl hvf), ?_⟩
    intro c hc
    rw [hc] at he
    exact absurd he (by simp [Httd.isErr])

/-- Configuration with an empty bot token. -/
def confC8 : Httd.Config :=
  { apiVersion := 6, botToken := "", httpClient := none,
    cancelRequestWhenRateLimited := false, userAgentVersion := "v1",
    userAgentSourceURL := "https://example.org/bot", userAgentExtra := "" }

/-- Witness for C8: the empty bot token is rejected. -/
theorem C8_new_client_validation_witness :
    Httd.isErr (Httd.NewClient confC8) = true :=
  (C8_new_client_validation confC8).1.mpr (Or.inr (Or.inl rfl))


theorem uintDec_zero : Ratelimit.uintDec 0 = Ratelimit.uintSize - 1 := by decide

/-- Local `acquire` on a limited bucket (`remaining = 0`, window still
open) whose caller is willing to wait: the reserve branch decrements
the `uint` `remaining` past zero, wrapping it to 2^64 - 1. -/
theorem acquire_reserve_wrap (b : Ratelimit.bucket) (now within : ℤ)
    (h0 : b.remaining = 0) (hLT : b.longestTimeout = 0)
    (hlim : now < b.reset) (hw : 0 < within) (hsoon : b.reset < now + within) :
    (Ratelimit.acquire b now within).2.remaining = Ratelimit.uintSize - 1 ∧
    (Ratelimit.acquire b now within).2.longestTimeout = 0 ∧
    (Ratelimit.acquire b now within).1.rateLimited = true := by
  unfold Ratelimit.acquire Ratelimit.update Ratelimit.limited
  simp [hLT, h0, hlim, hw, hsoon, uintDec_zero]

/-- Claim C9: in the reserve branch `acquire` decrements the `uint`
field `remaining` while it equals 0, wrapping it to 2^64 - 1; from
such a state with `longestTimeout = 0` (so the refresh never runs),
every subsequent acquire — at any times and patience budgets — sees
`remaining ≠ 0`, is never limited, and grants a permit, for 2^64 - 1
consecutive calls. -/
theorem C9_uint_wrap_unbounded_grants (b : Ratelimit.bucket) (now within : ℤ)
    (sched : ℕ → ℤ × ℤ)
    (h0 : b.remaining = 0) (hLT : b.longestTimeout = 0)
    (hlim : now < b.reset) (hw : 0 < within) (hsoon : b.reset < now + within) :
    ((Ratelimit.acquire b now within).2.remaining = Ratelimit.uintSize - 1) ∧
    (∀ n : ℕ, n ≤ Ratelimit.uintSize - 1 →
      (acquireIter (Ratelimit.acquire b now within).2 sched n).remaining =
        Ratelimit.uintSize - 1 - n) ∧
    (∀ n : ℕ, n < Ratelimit.uintSize - 1 →
      (Ratelimit.acquire (acquireIter (Ratelimit.acquire b now within).2 sched n)
          (sched n).1 (sched n).2).1.rateLimited = false ∧
      (Ratelimit.acquire (acquireIter (Ratelimit.acquire b now within).2 sched n)
          (sched n).1 (sched n).2).1.err = none) := by
  obtain ⟨hw1, hw2, _⟩ := acquire_reserve_wrap b now within h0 hLT hlim hw hsoon
  refine ⟨hw1, ?_, ?_⟩
  · intro n hn
    exact (acquireIter_remaining (Ratelimit.acquire b now within).2 sched hw2 hw1 n hn).1
  · intro n hn
    obtain ⟨hr1, hr2⟩ :=
      acquireIter_remaining (Ratelimit.acquire b now within).2 sched hw2 hw1 n (by omega)
    have hrne : (acquireIter (Ratelimit.acquire b now within).2 sched n).remaining ≠ 0 := by
      omega
    obtain ⟨ha1, ha2, _, _⟩ :=
      acquire_step_free (acquireIter (Ratelimit.acquire b now within).2 sched n)
        (sched n).1 (sched n).2 hr2 hrne
    exact ⟨ha1, ha2⟩

/-- Bucket in the wrap-triggering state for the C9 witness. -/
def bucketC9 : Ratelimit.bucket :=
  { key := "", invalid := false, lastUpdated := 0, limit := 1, remaining := 0,
    reset := 100, longestTimeout := 0, shortestTimeout := 0, active := false }

/-- Constant schedule for the C9 witness. -/
def schedC9 : ℕ → ℤ × ℤ := fun _ => (0, 0)

/-- Witness for C9 at a concrete wrap followed by three free grants. -/
theorem C9_uint_wrap_witness :
    (Ratelimit.acquire bucketC9 0 200).2.remaining = Ratelimit.uintSize - 1 ∧
    (acquireIter (Ratelimit.acquire bucketC9 0 200).2 schedC9 3).remaining =
      Ratelimit.uintSize - 1 - 3 ∧
    (Ratelimit.acquire (acquireIter (Ratelimit.acquire bucketC9 0 200).2 schedC9 3)
        (schedC9 3).1 (schedC9 3).2).1.rateLimited = false :=
  have H := C9_uint_wrap_unbounded_grants bucketC9 0 200 schedC9 rfl rfl
    (by decide) (by decide) (by decide)
  ⟨H.1, H.2.1 3 (by decide), (H.2.2 3 (by decide)).1⟩

/-- Claim C10: after a successful `Acquire`, a failure while preparing
the request body (non-`io.Reader` body with non-JSON content type, or
JSON marshalling failure) makes `Client.Do` return an error without
calling `RegretAcquire`, leaving the consumed permit unrefunded —
whereas `http.NewRequest` failures and transport failures do refund
the permit via `RegretAcquire`. -/
theorem C10_body_error_no_refund (c : Httd.Client) (s : Ratelimit.bucketPair)
    (r : Httd.Request) (w : Httd.World) (now : ℤ)
    (hacq : (Ratelimit.Acquire s now (Httd.acceptableDelay c)).1.1.err = none) :
    (Httd.bodyPrepFails r →
      (Httd.Do c s r w now).1.err ≠ none ∧
      (Httd.Do c s r w now).1.regretCalled = false ∧
      (Httd.Do c s r w now).2 = (Ratelimit.Acquire s now (Httd.acceptableDelay c)).2) ∧
    (¬ Httd.bodyPrepFails r → w.newRequestOk = false →
      (Httd.Do c s r w now).1.regretCalled = true ∧
      (Httd.Do c s r w now).2 =
        Ratelimit.RegretAcquire (Ratelimit.Acquire s now (Httd.acceptableDelay c)).2
          (Ratelimit.Acquire s now (Httd.acceptableDelay c)).1.2) ∧
    (¬ Httd.bodyPrepFails r → w.newRequestOk = true → w.transportOk = false →
      (Httd.Do c s r w now).1.regretCalled = true ∧
      (Httd.Do c s r w now).2 =
        Ratelimit.RegretAcquire (Ratelimit.Acquire s now (Httd.acceptableDelay c)).2
          (Ratelimit.Acquire s now (Httd.acceptableDelay c)).1.2) := by
  have hnone : (Ratelimit.Acquire s now (Httd.acceptableDelay c)).1.1.err.isSome = false := by
    rw [hacq]
    rfl
  obtain ⟨hb, bir, ct, mo⟩ := r
  obtain ⟨nro, tro, hok, sok⟩ := w
  refine ⟨?_, ?_, ?_⟩
  · rintro ⟨hb1, hb2, hb3⟩
    cases hb
    · exact absurd hb1 (by simp)
    · cases bir
      · rcases hb3 with hct | hmo
        · simp [Httd.Do, hnone, hct]
        · cases mo
          · by_cases hct : ct = Httd.ContentTypeJSON
            · simp [Httd.Do, hnone, hct]
            · simp [Httd.Do, hnone, hct]
          · exact absurd hmo (by simp)
      · exact absurd hb2 (by simp)
  · intro hnf hnr
    subst hnr
    cases hb
    · simp [Httd.Do, hnone]
    · cases bir
      · cases mo
        · exact absurd ⟨rfl, rfl, Or.inr rfl⟩ hnf
        · by_cases hct : ct = Httd.ContentTypeJSON
          · simp [Httd.Do, hnone, hct]
          · exact absurd ⟨rfl, rfl, Or.inl hct⟩ hnf
      · simp [Httd.Do, hnone]
  · intro hnf hnr htr
    subst hnr
    subst htr
    cases hb
    · simp [Httd.Do, hnone]
    · cases bir
      · cases mo
        · exact absurd ⟨rfl, rfl, Or.inr rfl⟩ hnf
        · by_cases hct : ct = Httd.ContentTypeJSON
          · simp [Httd.Do, hnone, hct]
          · exact absurd ⟨rfl, rfl, Or.inl hct⟩ hnf
      · simp [Httd.Do, hnone]

/-- Client with a zero-timeout HTTP client for the C10 witness. -/
def clientC10 : Httd.Client :=
  { url := "", cancelRequestWhenRateLimited := false, httpClient := { timeout := 0 } }

/-- Pair whose local bucket has permits and an expired window, so the
C10 acquire succeeds. -/
def pairC10 : Ratelimit.bucketPair := { b := bucketC3, global := bucketBase }

/-- Request whose body is not a reader and not JSON: the body
preparation fails. -/
def reqC10 : Httd.Request :=
  { hasBody := true, bodyIsReader := false, contentType := "text/plain",
    marshalOk := true }

/-- World in which every external step would succeed. -/
def worldC10 : Httd.World :=
  { newRequestOk := true, transportOk := true, headerOk := true,
    statusSuccess := true }

/-- Witness for C10: the concrete body-preparation failure returns an
error, calls no refund, and leaves the post-acquire state intact. -/
theorem C10_body_error_no_refund_witness :
    (Httd.Do clientC10 pairC10 reqC10 worldC10 0).1.err ≠ none ∧
    (Httd.Do clientC10 pairC10 reqC10 worldC10 0).1.regretCalled = false ∧
    (Httd.Do clientC10 pairC10 reqC10 worldC10 0).2 =
      (Ratelimit.Acquire pairC10 0 (Httd.acceptableDelay clientC10)).2 :=
  (C10_body_error_no_refund clientC10 pairC10 reqC10 worldC10 0 (by decide)).1
    (by decide)

theorem stepSynthesizeReset_int (hh : Ratelimit.Header) (timestamp k : ℤ)
    (h1 : hh.reset = none) (h2 : hh.resetAfter = some ((k : ℤ) : ℚ)) :
    Ratelimit.stepSynthesizeReset hh timestamp =
      Except.ok { hh with
        reset := some ((Int.tdiv (timestamp + k * 1000000) 1000000 : ℤ) : ℚ) } := by
  unfold Ratelimit.stepSynthesizeReset Ratelimit.parseIntQ
  rw [h1, h2]
  simp [Rat.den_intCast, Rat.num_intCast]

/-- Behaviour of the final three normalizer steps on a header whose
`reset` is absent and whose `reset-after` is an integer value: the run
succeeds, and the synthesized `reset` is `(timestamp + after ms)` read
back in (truncated) milliseconds. -/
theorem pipeline_char (h2 : Ratelimit.Header) (timestamp k : ℤ)
    (hr2 : h2.reset = none)
    (ha2 : h2.resetAfter = some ((k : ℤ) : ℚ))
    (hretry2 : ∀ t, h2.retryAfter = some t → t.den = 1) :
    (Ratelimit.okHeader (Ratelimit.stepSynthesizeReset
        (Ratelimit.stepResetMs (Ratelimit.stepRetryAfter h2)) timestamp)).isSome = true ∧
    (Ratelimit.resultResetAfter (Ratelimit.stepSynthesizeReset
        (Ratelimit.stepResetMs (Ratelimit.stepRetryAfter h2)) timestamp)).map Rat.den =
      some 1 ∧
    Ratelimit.resultReset (Ratelimit.stepSynthesizeReset
        (Ratelimit.stepResetMs (Ratelimit.stepRetryAfter h2)) timestamp) =
      (Ratelimit.resultResetAfter (Ratelimit.stepSynthesizeReset
          (Ratelimit.stepResetMs (Ratelimit.stepRetryAfter h2)) timestamp)).map
        (fun t => ((Int.tdiv (timestamp + t.num * 1000000) 1000000 : ℤ) : ℚ)) ∧
    (h2.retryAfter = none →
      Ratelimit.resultResetAfter (Ratelimit.stepSynthesizeReset
          (Ratelimit.stepResetMs (Ratelimit.stepRetryAfter h2)) timestamp) =
        some ((k : ℤ) : ℚ)) := by
  cases hr : h2.retryAfter with
  | none =>
    have hra : Ratelimit.stepRetryAfter h2 = h2 := by
      unfold Ratelimit.stepRetryAfter
      rw [hr]
    have hrm : Ratelimit.stepResetMs h2 = h2 := by
      unfold Ratelimit.stepResetMs
      rw [hr2]
    rw [hra, hrm, stepSynthesizeReset_int h2 timestamp k hr2 ha2]
    refine ⟨rfl, ?_, ?_, ?_⟩
    · simp [Ratelimit.resultResetAfter, Ratelimit.okHeader, ha2]
    · simp [Ratelimit.resultResetAfter, Ratelimit.resultReset, Ratelimit.okHeader, ha2]
    · intro _
      simp [Ratelimit.resultResetAfter, Ratelimit.okHeader, ha2]
  | some t =>
    have htden : t.den = 1 := hretry2 t hr
    have htv : ((t.num : ℤ) : ℚ) = t := Rat.coe_int_num_of_den_eq_one htden
    have hra : Ratelimit.stepRetryAfter h2 = { h2 with resetAfter := some t } := by
      unfold Ratelimit.stepRetryAfter
      rw [hr]
    have hrm : Ratelimit.stepResetMs { h2 with resetAfter := some t } =
        { h2 with resetAfter := some t } := by
      unfold Ratelimit.stepResetMs
      show (match ({ h2 with resetAfter := some t } : Ratelimit.Header).reset with
        | some q => { ({ h2 with resetAfter := some t } : Ratelimit.Header) with
            reset := some ((Ratelimit.goTrunc (q * 1000) : ℤ) : ℚ) }
        | none => { h2 with resetAfter := some t }) = { h2 with resetAfter := some t }
      rw [show ({ h2 with resetAfter := some t } : Ratelimit.Header).reset = none from hr2]
    rw [hra, hrm, stepSynthesizeReset_int { h2 with resetAfter := some t } timestamp t.num
      hr2 (by rw [htv])]
    refine ⟨rfl, ?_, ?_, ?_⟩
    · simp [Ratelimit.resultResetAfter, Ratelimit.okHeader, htden]
    · simp [Ratelimit.resultResetAfter, Ratelimit.resultReset, Ratelimit.okHeader]
    · intro hcontra
      cases hcontra

/-- The 429 step succeeds whenever a 429 body is decodable, and only
ever rewrites `resetAfter` (to an integer value) and `global`; `reset`
and `retryAfter` pass through, and away from 429 it is the identity. -/
theorem step429_fields (status : ℤ) (body : Option Ratelimit.RateLimitResponseStructure)
    (hh : Ratelimit.Header) (hbody : status = 429 → body.isSome = true) :
    ∃ h2, Ratelimit.step429 status body hh = Except.ok h2 ∧
      h2.reset = hh.reset ∧
      h2.retryAfter = hh.retryAfter ∧
      (h2.resetAfter = hh.resetAfter ∨ ∃ k : ℤ, h2.resetAfter = some ((k : ℤ) : ℚ)) ∧
      (¬ status = 429 → h2 = hh) := by
  unfold Ratelimit.step429
  by_cases hs : status = 429
  · rw [if_pos hs]
    cases hb : body with
    | none => exact absurd (hbody hs) (by rw [hb]; simp)
    | some info =>
      obtain ⟨msg, rA, glob⟩ := info
      refine ⟨_, rfl, ?_, ?_, ?_, fun hx => absurd hs hx⟩
      · cases glob <;> by_cases h0 : (0 : ℤ) < rA <;> simp [h0]
      · cases glob <;> by_cases h0 : (0 : ℤ) < rA <;> simp [h0]
      · cases glob <;> by_cases h0 : (0 : ℤ) < rA <;> simp [h0]
  · rw [if_neg hs]
    exact ⟨hh, rfl, rfl, rfl, Or.inl rfl, fun _ => rfl⟩

/-- Claim C7: on any input header set where `X-RateLimit-Reset` is
absent and `X-RateLimit-Reset-After` is present (with the `Retry-After`
header, when present, integral as HTTP requires, and the 429 body, when
applicable, decodable), `CorrectDiscordHeader` succeeds — substituting
the local wall clock when the `date` header is missing or unparsable —
and sets the output `X-RateLimit-Reset` to the parsed (or substituted)
date plus the final `X-RateLimit-Reset-After` duration, as an integer
epoch-millisecond value; away from the `Retry-After` and 429 overrides
the final `X-RateLimit-Reset-After` is exactly the input value
rewritten from fractional seconds to integer milliseconds. -/
theorem C7_synthesized_reset (status : ℤ) (h : Ratelimit.Header)
    (body : Option Ratelimit.RateLimitResponseStructure) (localNow : ℤ) (q : ℚ)
    (hreset : h.reset = none) (hafter : h.resetAfter = some q)
    (hbody : status = 429 → body.isSome = true)
    (hretry : ∀ t, h.retryAfter = some t → t.den = 1) :
    (Ratelimit.okHeader (Ratelimit.CorrectDiscordHeader status h body localNow)).isSome
        = true ∧
    (Ratelimit.resultResetAfter
        (Ratelimit.CorrectDiscordHeader status h body localNow)).map Rat.den = some 1 ∧
    Ratelimit.resultReset (Ratelimit.CorrectDiscordHeader status h body localNow) =
      (Ratelimit.resultResetAfter
          (Ratelimit.CorrectDiscordHeader status h body localNow)).map
        (fun t => ((Int.tdiv ((h.date.getD localNow) + t.num * 1000000) 1000000 : ℤ) : ℚ)) ∧
    (h.retryAfter = none → ¬ status = 429 →
      Ratelimit.resultResetAfter (Ratelimit.CorrectDiscordHeader status h body localNow) =
        some ((Ratelimit.goTrunc (q * 1000) : ℤ) : ℚ)) := by
  obtain ⟨h2, hstep, hrst, hrtr, hresetA, hid⟩ := step429_fields status body
    { h with resetAfter := some ((Ratelimit.goTrunc (q * 1000) : ℤ) : ℚ) } hbody
  have hEq : Ratelimit.CorrectDiscordHeader status h body localNow =
      Ratelimit.stepSynthesizeReset (Ratelimit.stepResetMs (Ratelimit.stepRetryAfter h2))
        (h.date.getD localNow) := by
    simp only [Ratelimit.CorrectDiscordHeader, Ratelimit.HeaderToTime, hafter]
    rw [hstep]
  obtain ⟨k, hA, hk429⟩ : ∃ k : ℤ, h2.resetAfter = some ((k : ℤ) : ℚ) ∧
      (¬ status = 429 → k = Ratelimit.goTrunc (q * 1000)) := by
    rcases hresetA with hA | ⟨k, hA⟩
    · exact ⟨Ratelimit.goTrunc (q * 1000), hA, fun _ => rfl⟩
    · refine ⟨k, hA, ?_⟩
      intro hs
      have hA2 := hA
      rw [hid hs] at hA2
      have hA3 : (((Ratelimit.goTrunc (q * 1000) : ℤ) : ℚ)) = ((k : ℤ) : ℚ) := by
        injection hA2
      exact_mod_cast hA3.symm
  obtain ⟨p1, p2, p3, p4⟩ := pipeline_char h2 (h.date.getD localNow) k
    (hrst.trans hreset) hA
    (fun t ht => hretry t (by rw [hrtr] at ht; exact ht))
  refine ⟨?_, ?_, ?_, ?_⟩
  · rw [hEq]
    exact p1
  · rw [hEq]
    exact p2
  · rw [hEq]
    exact p3
  · intro hrn hs429
    rw [hEq]
    have hq := p4 (by rw [hrtr]; exact hrn)
    rw [hk429 hs429] at hq
    exact hq

/-- Header with no parsable date, no reset, and a fractional
`reset-after` of 1.5 seconds, for the C7 witness. -/
def headerC7 : Ratelimit.Header :=
  { date := none, reset := none, resetAfter := some ((3 : ℚ) / 2),
    retryAfter := none, limit := none, remaining := none, bucketKey := none,
    global := false }

/-- Witness for C7: a 200 response with an unparsable date and
`reset-after = 1.5 s`; the local clock (5 ms) is substituted and the
reset is synthesized from it. -/
theorem C7_synthesized_reset_witness :
    (Ratelimit.okHeader (Ratelimit.CorrectDiscordHeader 200 headerC7 none 5000000)).isSome
        = true ∧
    (Ratelimit.resultResetAfter
        (Ratelimit.CorrectDiscordHeader 200 headerC7 none 5000000)).map Rat.den = some 1 ∧
    Ratelimit.resultReset (Ratelimit.CorrectDiscordHeader 200 headerC7 none 5000000) =
      (Ratelimit.resultResetAfter
          (Ratelimit.CorrectDiscordHeader 200 headerC7 none 5000000)).map
        (fun t => ((Int.tdiv ((headerC7.date.getD 5000000) + t.num * 1000000) 1000000 : ℤ) : ℚ)) ∧
    (headerC7.retryAfter = none → ¬ (200 : ℤ) = 429 →
      Ratelimit.resultResetAfter (Ratelimit.CorrectDiscordHeader 200 headerC7 none 5000000) =
        some ((Ratelimit.goTrunc (((3 : ℚ) / 2) * 1000) : ℤ) : ℚ)) :=
  C7_synthesized_reset 200 headerC7 none 5000000 ((3 : ℚ) / 2) rfl rfl
    (fun hc => absurd hc (by decide)) (fun t ht => Option.noConfusion ht)
